import Mathlib

/-!
Verification of the FX reactive object / DOM binding layer (src/FX.js).

The development embeds the reactive node record, the DOM binding helpers and
the lazy tree root as executable Lean definitions, translated function by
function from the source, and proves the behavioural claims about them.
Host DOM capabilities (querySelectorAll, setAttribute, addEventListener,
event dispatch) are modelled as explicit state operations; element reference
identity (the JavaScript triple-equals used by Array.prototype.includes) is
modelled by a numeric eid field which the document keeps unique.
-/

namespace FX

/-- JSVal is a JavaScript runtime value as it flows through the FX layer:
null, a string, a boolean, or a number. -/
inductive JSVal where
  | null : JSVal
  | str : String → JSVal
  | bool : Bool → JSVal
  | num : Int → JSVal
  deriving DecidableEq, Repr

/-- JsError is a JavaScript runtime error: a ReferenceError carrying the name
of the unresolved identifier, or a TypeError. -/
inductive JsError where
  | referenceError : String → JsError
  | typeError : JsError
  deriving DecidableEq, Repr

/-- Element models a DOM element. The eid field models reference identity
(the JavaScript triple-equals); the document never holds two elements with
the same eid. The fields value, checked, selectedIndex and innerHTML are the
synchronization channels; attrs is the attribute map; tagName and type drive
the two inference helpers. -/
structure Element where
  eid : Nat
  tagName : String
  type : String
  value : JSVal
  checked : JSVal
  selectedIndex : JSVal
  innerHTML : JSVal
  attrs : List (String × String)
  deriving DecidableEq, Repr

/-- inferBindingType from src/FX.js: classify an element into the channel
name used for value synchronization, testing tagName INPUT or TEXTAREA
first, then SELECT, then the type field for checkbox or radio, defaulting
to innerHTML. -/
def inferBindingType (element : Element) : String :=
  if element.tagName == "INPUT" || element.tagName == "TEXTAREA" then "value"
  else if element.tagName == "SELECT" then "selectedIndex"
  else if element.type == "checkbox" || element.type == "radio" then "checked"
  else "innerHTML"

/-- inferEventType from src/FX.js: choose the event name used to sync DOM
changes back, testing tagName INPUT or TEXTAREA first, then SELECT, then the
type field for checkbox or radio, defaulting to input. -/
def inferEventType (element : Element) : String :=
  if element.tagName == "INPUT" || element.tagName == "TEXTAREA" then "input"
  else if element.tagName == "SELECT" then "change"
  else if element.type == "checkbox" || element.type == "radio" then "change"
  else "input"

/-- getElementValue from src/FX.js: read the element channel named by
inferBindingType, defaulting to innerHTML. -/
def getElementValue (element : Element) : JSVal :=
  let t := inferBindingType element
  if t == "value" then element.value
  else if t == "checked" then element.checked
  else if t == "selectedIndex" then element.selectedIndex
  else element.innerHTML

/-- setChannel is the state level primitive for writing the element channel
named by a binding type string: value, checked, selectedIndex, and any other
name falls through to innerHTML, mirroring the channel table read side. -/
def setChannel (element : Element) (t : String) (v : JSVal) : Element :=
  if t == "value" then { element with value := v }
  else if t == "checked" then { element with checked := v }
  else if t == "selectedIndex" then { element with selectedIndex := v }
  else { element with innerHTML := v }

/-- setAttrList models the attribute list effect of element.setAttribute:
replace the pair for an existing key in place, otherwise append the pair. -/
def setAttrList : List (String × String) → String → String → List (String × String)
  | [], k, v => [(k, v)]
  | (k2, v2) :: rest, k, v =>
    if k2 == k then (k, v) :: rest else (k2, v2) :: setAttrList rest k v

/-- setAttribute is the host DOM capability element.setAttribute(key, value),
acting on the element attribute list. -/
def setAttribute (element : Element) (k v : String) : Element :=
  { element with attrs := setAttrList element.attrs k v }

/-- lookupAttr is association list lookup on an attribute list. -/
def lookupAttr : List (String × String) → String → Option String
  | [], _ => none
  | (k2, v2) :: rest, k => if k2 == k then some v2 else lookupAttr rest k

/-- getAttribute is the host DOM capability element.getAttribute(key). -/
def getAttribute (element : Element) (k : String) : Option String :=
  lookupAttr element.attrs k

/-- NodeRec is the underlying record of a reactive node, the proxy target of
createReactiveNode in src/FX.js: a value, an attribute map, and the list DOM
of bound elements. -/
structure NodeRec where
  value : JSVal
  attr : List (String × String)
  DOM : List Element
  deriving DecidableEq, Repr

/-- createReactiveNode builds the initial node record of src/FX.js: value is
null, the attribute map is empty, DOM is the empty list. -/
def createReactiveNode : NodeRec :=
  { value := JSVal.null, attr := [], DOM := [] }

/-- updateDOM is called by updateDOMValues in src/FX.js but is not defined
anywhere in the repository, so in JavaScript every call to it raises
ReferenceError. The definition models exactly that: the call always raises. -/
def updateDOM (element : Element) (t : String) (v : JSVal) : Except JsError Element :=
  Except.error (JsError.referenceError "updateDOM")

/-- updateDOMValuesList is the forEach loop body of updateDOMValues: for each
bound element, infer its binding type and call updateDOM; a raised error
aborts the loop and propagates. -/
def updateDOMValuesList : List Element → JSVal → Except JsError (List Element)
  | [], _ => Except.ok []
  | element :: rest, v =>
    match updateDOM element (inferBindingType element) v with
    | Except.ok e2 =>
      match updateDOMValuesList rest v with
      | Except.ok es => Except.ok (e2 :: es)
      | Except.error err => Except.error err
    | Except.error err => Except.error err

/-- updateDOMValues from src/FX.js: push the node value to every bound
element via updateDOM; on an empty DOM list nothing runs and the node is
returned unchanged, otherwise the missing updateDOM raises. -/
def updateDOMValues (node : NodeRec) : Except JsError NodeRec :=
  match updateDOMValuesList node.DOM node.value with
  | Except.ok es => Except.ok { node with DOM := es }
  | Except.error err => Except.error err

/-- applyAttrs is the inner forEach of updateDOMAttributes: apply every key
and value pair of the attribute map to one element via setAttribute, in map
order. -/
def applyAttrs (element : Element) (attrs : List (String × String)) : Element :=
  attrs.foldl (fun e kv => setAttribute e kv.1 kv.2) element

/-- updateDOMAttributes from src/FX.js: for every bound element, set every
key and value pair of the current attribute map on it. -/
def updateDOMAttributes (node : NodeRec) : NodeRec :=
  { node with DOM := node.DOM.map (fun element => applyAttrs element node.attr) }

/-- setValueProp is the set trap of the reactive node proxy for the value
property: store the value on the target, then call updateDOMValues; a raised
error propagates out of the assignment after the store, otherwise the trap
returns true. -/
def setValueProp (node : NodeRec) (v : JSVal) : NodeRec × Except JsError Bool :=
  let stored := { node with value := v }
  match updateDOMValues stored with
  | Except.ok n => (n, Except.ok true)
  | Except.error err => (stored, Except.error err)

/-- setAttrProp is the set trap of the reactive node proxy for the attr
property: store the map on the target, then run updateDOMAttributes, and
return true. -/
def setAttrProp (node : NodeRec) (m : List (String × String)) : NodeRec × Except JsError Bool :=
  let stored := { node with attr := m }
  (updateDOMAttributes stored, Except.ok true)

/-- BindState couples a node record with the list of event listener
registrations the binder has installed on elements, each recorded as the
element eid together with the event name passed to addEventListener. -/
structure BindState where
  node : NodeRec
  listeners : List (Nat × String)
  deriving DecidableEq, Repr

/-- emptyState is a fresh node with no listeners installed. -/
def emptyState : BindState :=
  { node := createReactiveNode, listeners := [] }

/-- querySelectorAll is the host document query capability: the document is
modelled as the function from selector strings to the list of matched
elements. -/
def querySelectorAll (doc : String → List Element) (selector : String) : List Element :=
  doc selector

/-- includesElem models node.DOM.includes(element), which compares by
reference identity, that is by eid. -/
def includesElem (dom : List Element) (element : Element) : Bool :=
  dom.any (fun x => x.eid == element.eid)

/-- bindStep is one iteration of the forEach in bindDOM: skip an element
already included, otherwise push it onto DOM and register a listener for its
inferred event type. -/
def bindStep (st : BindState) (element : Element) : BindState :=
  if includesElem st.node.DOM element then st
  else
    { node := { st.node with DOM := st.node.DOM ++ [element] },
      listeners := st.listeners ++ [(element.eid, inferEventType element)] }

/-- bindDOM from src/FX.js: query the document for the selector and run the
forEach over the matched elements, returning the node state. -/
def bindDOM (selector : String) (st : BindState) (doc : String → List Element) : BindState :=
  (querySelectorAll doc selector).foldl bindStep st

/-- dollarGet is the get trap of the inner proxy returned for the dollar
property: reading a property name binds that name as the selector. -/
def dollarGet (doc : String → List Element) (p : String) (st : BindState) : BindState :=
  bindDOM p st doc

/-- dollarTargetIsCallable records whether the target of the inner dollar
proxy is callable. The source wraps a plain object literal, which is not
callable. -/
def dollarTargetIsCallable : Bool := false

/-- dollarApply models invoking the dollar proxy as a function. Following
the ECMAScript proxy rules, a proxy object has a call behaviour only when
its target is callable; the apply trap of a proxy over a non callable target
can never run, and the invocation raises TypeError. -/
def dollarApply (doc : String → List Element) (s : String) (st : BindState) :
    Except JsError BindState :=
  if dollarTargetIsCallable then Except.ok (bindDOM s st doc)
  else Except.error JsError.typeError

/-- runListeners models the host dispatching an event of the given type on
the given element: every registration installed by bindDOM whose eid and
event name match runs its callback, which assigns getElementValue of the
element directly to the raw target record, bypassing the node proxy. -/
def runListeners (ls : List (Nat × String)) (st : BindState) (element : Element)
    (evType : String) : BindState :=
  ls.foldl
    (fun s l =>
      if l = (element.eid, evType) then
        { s with node := { s.node with value := getElementValue element } }
      else s)
    st

/-- fireEvent dispatches an event of the given type on the given element
against the listeners recorded in the state. -/
def fireEvent (st : BindState) (element : Element) (evType : String) : BindState :=
  runListeners st.listeners st element evType

/-- RNode pairs a node record with an allocation identity, modelling the
object identity of the proxy returned by createReactiveNode. -/
structure RNode where
  nid : Nat
  node : NodeRec
  deriving DecidableEq, Repr

/-- FxRoot is the backing store of the root fx proxy: the stored entries in
insertion order, and the next fresh allocation identity. Property names
absent from the store are unset. -/
structure FxRoot where
  entries : List (String × RNode)
  nextId : Nat
  deriving DecidableEq, Repr

/-- lookupEntry is association list lookup on the root store. -/
def lookupEntry : List (String × RNode) → String → Option RNode
  | [], _ => none
  | (q, n) :: rest, p => if q == p then some n else lookupEntry rest p

/-- freshNode allocates a new empty reactive node with the given identity. -/
def freshNode (i : Nat) : RNode :=
  { nid := i, node := createReactiveNode }

/-- fxGet is the get trap of the root fx proxy: if the name is unset, create
a fresh reactive node, store it under the name, and return it; otherwise
return the stored node unchanged. -/
def fxGet (r : FxRoot) (p : String) : RNode × FxRoot :=
  match lookupEntry r.entries p with
  | some n => (n, r)
  | none =>
    let n := freshNode r.nextId
    (n, { entries := r.entries ++ [(p, n)], nextId := r.nextId + 1 })

/-! Concrete elements and documents used by the closed theorems below. -/

/-- divExample is a plain DIV element whose content channel holds the string
old. -/
def divExample : Element :=
  { eid := 5, tagName := "DIV", type := "", value := JSVal.null,
    checked := JSVal.null, selectedIndex := JSVal.num 0,
    innerHTML := JSVal.str "old", attrs := [] }

/-- nodeWithDiv is a reactive node record with one bound element. -/
def nodeWithDiv : NodeRec :=
  { value := JSVal.null, attr := [], DOM := [divExample] }

/-- checkboxExample is a checked checkbox input element. -/
def checkboxExample : Element :=
  { eid := 3, tagName := "INPUT", type := "checkbox", value := JSVal.str "on",
    checked := JSVal.bool true, selectedIndex := JSVal.num 0,
    innerHTML := JSVal.str "", attrs := [] }

/-- docCheckbox is a document in which the selector cb matches exactly the
checkbox element. -/
def docCheckbox : String → List Element :=
  fun s => if s == "cb" then [checkboxExample] else []

/-- stCheckbox is the state after binding the checkbox through bindDOM. -/
def stCheckbox : BindState :=
  bindDOM "cb" emptyState docCheckbox

/-- sectionExample is a plain SECTION element. -/
def sectionExample : Element :=
  { eid := 7, tagName := "SECTION", type := "", value := JSVal.null,
    checked := JSVal.null, selectedIndex := JSVal.num 0,
    innerHTML := JSVal.str "s", attrs := [] }

/-- docSection is a document in which the selector section matches exactly
the section element. -/
def docSection : String → List Element :=
  fun s => if s == "section" then [sectionExample] else []

/-- docEmpty is a document in which no selector matches anything. -/
def docEmpty : String → List Element := fun _ => []

/-- divFirst is a plain DIV element whose content channel holds the string
a. -/
def divFirst : Element :=
  { eid := 1, tagName := "DIV", type := "", value := JSVal.null,
    checked := JSVal.null, selectedIndex := JSVal.num 0,
    innerHTML := JSVal.str "a", attrs := [] }

/-- divSecond is a plain DIV element whose content channel holds the string
b. -/
def divSecond : Element :=
  { eid := 2, tagName := "DIV", type := "", value := JSVal.null,
    checked := JSVal.null, selectedIndex := JSVal.num 0,
    innerHTML := JSVal.str "b", attrs := [] }

/-- docTwoDivs is a document in which the selector div matches the two DIV
elements. -/
def docTwoDivs : String → List Element :=
  fun s => if s == "div" then [divFirst, divSecond] else []

/-- stTwoDivs is the state after binding both DIV elements through bindDOM. -/
def stTwoDivs : BindState :=
  bindDOM "div" emptyState docTwoDivs

/-- C1: the claim states that assigning node.value = v stores v and, before
the assignment returns, writes v into the channel of every bound element.
On a node with one bound element the code instead stores v on the target and
then raises ReferenceError, because updateDOMValues calls updateDOM, which
is not defined anywhere in the repository; the bound element is left
untouched and its channel still reads the old content. -/
theorem c1_set_value_with_bound_element_raises :
    setValueProp nodeWithDiv (JSVal.str "X") =
      ({ nodeWithDiv with value := JSVal.str "X" },
        Except.error (JsError.referenceError "updateDOM")) ∧
    (setValueProp nodeWithDiv (JSVal.str "X")).1.DOM = [divExample] ∧
    getElementValue divExample = JSVal.str "old" :=
  ⟨rfl, rfl, rfl⟩

/-- C3: the claim states that a checkbox or radio input syncs through the
checked channel and the change event. Because inferBindingType and
inferEventType test tagName INPUT before the type field, an actual checkbox
input is classified into the value channel and the input event, the listener
installed by bindDOM is for input, and dispatching a change event on the
bound checked checkbox leaves the node value at null instead of true. -/
theorem c3_checkbox_misclassified :
    inferBindingType checkboxExample = "value" ∧
    inferEventType checkboxExample = "input" ∧
    stCheckbox.listeners = [(3, "input")] ∧
    fireEvent stCheckbox checkboxExample "change" = stCheckbox ∧
    (fireEvent stCheckbox checkboxExample "change").node.value = JSVal.null := by
  refine ⟨?_, ?_, ?_, ?_, ?_⟩ <;> decide

/-- C4: the claim states that both binder call shapes succeed. Reading a
property name off the dollar proxy does bind the named selector, but
invoking the dollar proxy as a function raises TypeError, because the proxy
wraps a plain object literal, which is not callable, so the apply trap can
never run. -/
theorem c4_call_shape_raises_type_error :
    (dollarGet docSection "section" emptyState).node.DOM = [sectionExample] ∧
    dollarApply docSection "section" emptyState = Except.error JsError.typeError :=
  ⟨rfl, rfl⟩

/-- C7: for every element, the channel read back by getElementValue is the
channel selected by the write path classification inferBindingType: writing
any value into the channel named by inferBindingType and reading the element
back yields that value. -/
theorem c7_channel_roundtrip (element : Element) (v : JSVal) :
    getElementValue (setChannel element (inferBindingType element) v) = v := by
  cases element with
  | mk eid tagName type value checked selectedIndex innerHTML attrs =>
    by_cases h1 : (tagName == "INPUT" || tagName == "TEXTAREA") = true
    · simp [inferBindingType, getElementValue, setChannel, h1]
    · by_cases h2 : (tagName == "SELECT") = true
      · simp [inferBindingType, getElementValue, setChannel, h1, h2]
      · by_cases h3 : (type == "checkbox" || type == "radio") = true
        · simp [inferBindingType, getElementValue, setChannel, h1, h2, h3]
        · simp [inferBindingType, getElementValue, setChannel, h1, h2, h3]

/-- C9: a selector that matches no elements yields no new bindings: bindDOM
adds no bound element, installs no listener, raises nothing, and returns the
state unchanged. -/
theorem c9_empty_query_noop (doc : String → List Element) (selector : String)
    (st : BindState) (h : querySelectorAll doc selector = []) :
    bindDOM selector st doc = st := by
  unfold bindDOM
  rw [h]
  rfl

/-- Witness for C9 on a concrete empty document. -/
theorem c9_witness :
    querySelectorAll docEmpty "div" = [] ∧
    bindDOM "div" emptyState docEmpty = emptyState :=
  ⟨rfl, c9_empty_query_noop docEmpty "div" emptyState rfl⟩

/-- C10: on a node with no bound elements, assigning a value stores it and
the set trap returns true without raising, and likewise assigning an
attribute map; the loops over the empty DOM list never reach the missing
updateDOM. -/
theorem c10_unbound_set_safe (node : NodeRec) (v : JSVal)
    (m : List (String × String)) (h : node.DOM = []) :
    setValueProp node v = ({ node with value := v }, Except.ok true) ∧
    setAttrProp node m = ({ node with attr := m }, Except.ok true) := by
  obtain ⟨value, attr, DOM⟩ := node
  dsimp only at h
  subst h
  exact ⟨rfl, rfl⟩

/-- Witness for C10 on the fresh empty node. -/
theorem c10_witness :
    createReactiveNode.DOM = [] ∧
    setValueProp createReactiveNode (JSVal.str "v") =
      ({ createReactiveNode with value := JSVal.str "v" }, Except.ok true) ∧
    setAttrProp createReactiveNode [("id", "x")] =
      ({ createReactiveNode with attr := [("id", "x")] }, Except.ok true) :=
  ⟨rfl, c10_unbound_set_safe createReactiveNode (JSVal.str "v") [("id", "x")] rfl⟩

/-! Listener dispatch characterization, for the claims about DOM driven
updates. -/

/-- runListeners either rewrites the node value to the current element
channel reading, when a matching registration exists, or leaves the state
unchanged; no other component of the state is ever touched. -/
theorem runListeners_eq (element : Element) (t : String) :
    ∀ (ls : List (Nat × String)) (s : BindState),
      runListeners ls s element t =
        if (element.eid, t) ∈ ls then
          { s with node := { s.node with value := getElementValue element } }
        else s := by
  intro ls
  induction ls with
  | nil => intro s; simp [runListeners]
  | cons l rest ih =>
    intro s
    have hstep : runListeners (l :: rest) s element t =
        runListeners rest
          (if l = (element.eid, t) then
            { s with node := { s.node with value := getElementValue element } }
          else s) element t := rfl
    rw [hstep]
    by_cases hl : l = (element.eid, t)
    · rw [if_pos hl, ih]
      have hmem : (element.eid, t) ∈ l :: rest := by
        rw [hl]; exact List.mem_cons_self _ _
      rw [if_pos hmem]
      split <;> rfl
    · rw [if_neg hl, ih]
      by_cases hm : (element.eid, t) ∈ rest
      · rw [if_pos hm, if_pos (List.mem_cons_of_mem _ hm)]
      · rw [if_neg hm, if_neg ?_]
        intro hc
        rcases List.mem_cons.mp hc with h1 | h2
        · exact hl h1.symm
        · exact hm h2

/-- C2 amended: when the inferred event fires on a bound element, the
attached listener assigns the current channel reading of that element
directly to the raw node record, bypassing the intercepting proxy setter;
the node value is updated but the DOM synchronizer is not re-invoked, no
bound element is rewritten, and the listener registrations are unchanged. -/
theorem c2_listener_bypasses_setter (st : BindState) (element : Element)
    (t : String) (h : (element.eid, t) ∈ st.listeners) :
    fireEvent st element t =
      { st with node := { st.node with value := getElementValue element } } ∧
    (fireEvent st element t).node.DOM = st.node.DOM ∧
    (fireEvent st element t).listeners = st.listeners := by
  have h1 : fireEvent st element t =
      { st with node := { st.node with value := getElementValue element } } := by
    unfold fireEvent
    rw [runListeners_eq, if_pos h]
  exact ⟨h1, by rw [h1], by rw [h1]⟩

/-- C2 counterexample: two DIV elements with different content are bound to
one node; the inferred event fires on the first one. The listener does read
the channel of the firing element into the node value, but the claim, which
says that every bound element is then rewritten with that new value, fails:
the second bound element still reads back its old content. -/
theorem c2_counterexample :
    (fireEvent stTwoDivs divFirst "input").node.value = JSVal.str "a" ∧
    ¬ ∀ el ∈ (fireEvent stTwoDivs divFirst "input").node.DOM,
        getElementValue el = (fireEvent stTwoDivs divFirst "input").node.value := by
  refine ⟨by decide, ?_⟩
  decide

/-- Witness for the amended C2 on the concrete two element state. -/
theorem c2_witness :
    ((divFirst.eid, "input") ∈ stTwoDivs.listeners) ∧
    (fireEvent stTwoDivs divFirst "input" =
      { stTwoDivs with
        node := { stTwoDivs.node with value := getElementValue divFirst } } ∧
    (fireEvent stTwoDivs divFirst "input").node.DOM = stTwoDivs.node.DOM ∧
    (fireEvent stTwoDivs divFirst "input").listeners = stTwoDivs.listeners) :=
  ⟨by decide, c2_listener_bypasses_setter stTwoDivs divFirst "input" (by decide)⟩

/-! The lazy tree root. -/

/-- lookupEntry on a store that does not hold the name finds the entry
appended for that name. -/
theorem lookupEntry_append_self (l : List (String × RNode)) (p : String)
    (n : RNode) (h : lookupEntry l p = none) :
    lookupEntry (l ++ [(p, n)]) p = some n := by
  induction l with
  | nil => simp [lookupEntry]
  | cons e rest ih =>
    obtain ⟨q, m⟩ := e
    rw [List.cons_append]
    by_cases hq : (q == p) = true
    · exfalso
      simp only [lookupEntry] at h
      rw [if_pos hq] at h
      exact Option.noConfusion h
    · simp only [lookupEntry] at h ⊢
      rw [if_neg hq] at h
      rw [if_neg hq]
      exact ih h

/-- fxGet on a name the store already holds returns the stored node and
leaves the store unchanged. -/
theorem fxGet_stored (r : FxRoot) (p : String) (n : RNode)
    (h : lookupEntry r.entries p = some n) : fxGet r p = (n, r) := by
  unfold fxGet
  rw [h]

/-- C5: reading an unset property name from the tree root constructs a fresh
empty reactive node, stores it under the name, and returns it; reading the
same name again returns the identical node and leaves the store unchanged. -/
theorem c5_root_memoizes (r : FxRoot) (p : String)
    (h : lookupEntry r.entries p = none) :
    fxGet r p = (freshNode r.nextId,
      { entries := r.entries ++ [(p, freshNode r.nextId)],
        nextId := r.nextId + 1 }) ∧
    (fxGet r p).1.node = createReactiveNode ∧
    fxGet (fxGet r p).2 p = ((fxGet r p).1, (fxGet r p).2) := by
  have h1 : fxGet r p = (freshNode r.nextId,
      { entries := r.entries ++ [(p, freshNode r.nextId)],
        nextId := r.nextId + 1 }) := by
    unfold fxGet
    rw [h]
  refine ⟨h1, by rw [h1]; rfl, ?_⟩
  rw [h1]
  exact fxGet_stored _ p (freshNode r.nextId) (lookupEntry_append_self r.entries p _ h)

/-- rootEmpty is the initial empty tree root. -/
def rootEmpty : FxRoot := { entries := [], nextId := 0 }

/-- Witness for C5 on the empty root and a concrete name. -/
theorem c5_witness :
    lookupEntry rootEmpty.entries "user" = none ∧
    (fxGet rootEmpty "user" = (freshNode rootEmpty.nextId,
      { entries := rootEmpty.entries ++ [("user", freshNode rootEmpty.nextId)],
        nextId := rootEmpty.nextId + 1 }) ∧
    (fxGet rootEmpty "user").1.node = createReactiveNode ∧
    fxGet (fxGet rootEmpty "user").2 "user" =
      ((fxGet rootEmpty "user").1, (fxGet rootEmpty "user").2)) :=
  ⟨rfl, c5_root_memoizes rootEmpty "user" rfl⟩

/-! The bound element list and the bind fold. -/

/-- elemIds projects a DOM list to the reference identities of its
elements. -/
def elemIds (dom : List Element) : List Nat :=
  dom.map Element.eid

/-- includesElem holds exactly when the reference identity of the element is
already among the identities of the list. -/
theorem includesElem_iff (dom : List Element) (element : Element) :
    includesElem dom element = true ↔ element.eid ∈ elemIds dom := by
  simp only [includesElem, elemIds, List.any_eq_true, List.mem_map,
    beq_iff_eq]

/-- Appending a fresh identity keeps an identity list duplicate free. -/
theorem nodup_append_singleton {a : Nat} {l : List Nat} (h1 : l.Nodup)
    (h2 : a ∉ l) : (l ++ [a]).Nodup := by
  induction l with
  | nil => simp
  | cons b bs ih =>
    rw [List.cons_append, List.nodup_cons]
    rw [List.nodup_cons] at h1
    obtain ⟨hb, hbs⟩ := h1
    refine ⟨?_, ih hbs (fun hx => h2 (List.mem_cons_of_mem _ hx))⟩
    intro hmem
    rcases List.mem_append.mp hmem with hx | hx
    · exact hb hx
    · have hba : b = a := by simpa using hx
      exact h2 (by rw [← hba]; exact List.mem_cons_self _ _)

/-- The bind fold preserves freedom from duplicate element identities. -/
theorem bindFold_nodup (l : List Element) :
    ∀ st : BindState, (elemIds st.node.DOM).Nodup →
      (elemIds ((l.foldl bindStep st).node.DOM)).Nodup := by
  induction l with
  | nil => intro st h; exact h
  | cons e rest ih =>
    intro st h
    show (elemIds ((rest.foldl bindStep (bindStep st e)).node.DOM)).Nodup
    apply ih
    by_cases hc : includesElem st.node.DOM e = true
    · have hb : bindStep st e = st := by
        unfold bindStep; rw [if_pos hc]
      rw [hb]; exact h
    · have hb : bindStep st e =
          { node := { st.node with DOM := st.node.DOM ++ [e] },
            listeners := st.listeners ++ [(e.eid, inferEventType e)] } := by
        unfold bindStep; rw [if_neg hc]
      rw [hb]
      show (elemIds (st.node.DOM ++ [e])).Nodup
      rw [show elemIds (st.node.DOM ++ [e]) = elemIds st.node.DOM ++ [e.eid]
        by simp [elemIds]]
      exact nodup_append_singleton h (fun hm => hc ((includesElem_iff _ _).mpr hm))

/-- The bind fold never removes an element identity from the DOM list. -/
theorem bindFold_mono (l : List Element) :
    ∀ (st : BindState) (x : Nat), x ∈ elemIds st.node.DOM →
      x ∈ elemIds ((l.foldl bindStep st).node.DOM) := by
  induction l with
  | nil => intro st x h; exact h
  | cons e rest ih =>
    intro st x h
    show x ∈ elemIds ((rest.foldl bindStep (bindStep st e)).node.DOM)
    refine ih (bindStep st e) x ?_
    by_cases hc : includesElem st.node.DOM e = true
    · have hb : bindStep st e = st := by
        unfold bindStep; rw [if_pos hc]
      rw [hb]; exact h
    · have hb : bindStep st e =
          { node := { st.node with DOM := st.node.DOM ++ [e] },
            listeners := st.listeners ++ [(e.eid, inferEventType e)] } := by
        unfold bindStep; rw [if_neg hc]
      rw [hb]
      show x ∈ elemIds (st.node.DOM ++ [e])
      rw [show elemIds (st.node.DOM ++ [e]) = elemIds st.node.DOM ++ [e.eid]
        by simp [elemIds]]
      exact List.mem_append.mpr (Or.inl h)

/-- After the bind fold, the identity of every processed element is in the
DOM list. -/
theorem bindFold_mem (l : List Element) :
    ∀ (st : BindState) (e : Element), e ∈ l →
      e.eid ∈ elemIds ((l.foldl bindStep st).node.DOM) := by
  induction l with
  | nil => intro st e h; exact absurd h (List.not_mem_nil _)
  | cons f rest ih =>
    intro st e h
    show e.eid ∈ elemIds ((rest.foldl bindStep (bindStep st f)).node.DOM)
    rcases List.mem_cons.mp h with h1 | h2
    · apply bindFold_mono rest
      subst h1
      by_cases hc : includesElem st.node.DOM e = true
      · have hb : bindStep st e = st := by
          unfold bindStep; rw [if_pos hc]
        rw [hb]
        exact (includesElem_iff _ _).mp hc
      · have hb : bindStep st e =
            { node := { st.node with DOM := st.node.DOM ++ [e] },
              listeners := st.listeners ++ [(e.eid, inferEventType e)] } := by
          unfold bindStep; rw [if_neg hc]
        rw [hb]
        show e.eid ∈ elemIds (st.node.DOM ++ [e])
        rw [show elemIds (st.node.DOM ++ [e]) = elemIds st.node.DOM ++ [e.eid]
          by simp [elemIds]]
        exact List.mem_append.mpr (Or.inr (List.mem_singleton.mpr rfl))
    · exact ih (bindStep st f) e h2

/-- The bind fold is the identity when every processed element is already
included. -/
theorem bindFold_noop (l : List Element) :
    ∀ st : BindState, (∀ e ∈ l, includesElem st.node.DOM e = true) →
      l.foldl bindStep st = st := by
  induction l with
  | nil => intro st _; rfl
  | cons f rest ih =>
    intro st h
    have hb : bindStep st f = st := by
      unfold bindStep; rw [if_pos (h f (List.mem_cons_self _ _))]
    show rest.foldl bindStep (bindStep st f) = st
    rw [hb]
    exact ih st (fun e he => h e (List.mem_cons_of_mem _ he))

/-- C6: binding never duplicates a bound element: starting from a duplicate
free DOM list, bindDOM yields a duplicate free DOM list, and running the
same bind a second time leaves the state exactly as after the first run. -/
theorem c6_bind_idempotent_no_duplicates (selector : String)
    (doc : String → List Element) (st : BindState) :
    ((elemIds st.node.DOM).Nodup →
      (elemIds ((bindDOM selector st doc).node.DOM)).Nodup) ∧
    bindDOM selector (bindDOM selector st doc) doc = bindDOM selector st doc := by
  constructor
  · intro h
    exact bindFold_nodup (querySelectorAll doc selector) st h
  · show (querySelectorAll doc selector).foldl bindStep (bindDOM selector st doc) =
      bindDOM selector st doc
    apply bindFold_noop
    intro e he
    rw [includesElem_iff]
    exact bindFold_mem (querySelectorAll doc selector) st e he

/-- liFirst is a list item element. -/
def liFirst : Element :=
  { eid := 11, tagName := "LI", type := "", value := JSVal.null,
    checked := JSVal.null, selectedIndex := JSVal.num 0,
    innerHTML := JSVal.str "one", attrs := [] }

/-- liSecond is a second list item element. -/
def liSecond : Element :=
  { eid := 12, tagName := "LI", type := "", value := JSVal.null,
    checked := JSVal.null, selectedIndex := JSVal.num 0,
    innerHTML := JSVal.str "two", attrs := [] }

/-- docList is a document in which the selector li matches the two list
items. -/
def docList : String → List Element :=
  fun s => if s == "li" then [liFirst, liSecond] else []

/-- Witness for C6 on the concrete two item document. -/
theorem c6_witness :
    (elemIds emptyState.node.DOM).Nodup ∧
    (elemIds ((bindDOM "li" emptyState docList).node.DOM)).Nodup ∧
    bindDOM "li" (bindDOM "li" emptyState docList) docList =
      bindDOM "li" emptyState docList :=
  ⟨by decide,
   (c6_bind_idempotent_no_duplicates "li" docList emptyState).1 (by decide),
   (c6_bind_idempotent_no_duplicates "li" docList emptyState).2⟩

/-! Attribute synchronization. -/

/-- Looking up the key just set finds the value just set. -/
theorem lookupAttr_setAttrList_same (l : List (String × String)) (k v : String) :
    lookupAttr (setAttrList l k v) k = some v := by
  induction l with
  | nil => simp [setAttrList, lookupAttr]
  | cons e rest ih =>
    obtain ⟨k2, v2⟩ := e
    by_cases hk : (k2 == k) = true
    · simp only [setAttrList]
      rw [if_pos hk]
      simp [lookupAttr]
    · simp only [setAttrList]
      rw [if_neg hk]
      simp only [lookupAttr]
      rw [if_neg hk]
      exact ih

/-- Looking up a different key is unaffected by setAttribute. -/
theorem lookupAttr_setAttrList_other (l : List (String × String))
    (k v k2 : String) (h : ¬ k2 = k) :
    lookupAttr (setAttrList l k v) k2 = lookupAttr l k2 := by
  have hkk : (k == k2) = false := by
    simp only [beq_eq_false_iff_ne, ne_eq]
    intro hc
    exact h hc.symm
  induction l with
  | nil =>
    simp only [setAttrList, lookupAttr]
    rw [if_neg (by simp [hkk])]
  | cons e rest ih =>
    obtain ⟨k3, v3⟩ := e
    by_cases hk : (k3 == k) = true
    · simp only [setAttrList]
      rw [if_pos hk]
      simp only [lookupAttr]
      rw [if_neg (by simp [hkk])]
      have hk3 : k3 = k := by simpa using hk
      rw [show (k3 == k2) = false by rw [hk3]; exact hkk]
      simp
    · simp only [setAttrList]
      rw [if_neg hk]
      simp only [lookupAttr]
      rw [ih]

/-- Applying an attribute map leaves every key outside the map unchanged on
the element. -/
theorem getAttribute_applyAttrs_not_mem (m : List (String × String)) :
    ∀ (element : Element) (k : String), k ∉ m.map Prod.fst →
      getAttribute (applyAttrs element m) k = getAttribute element k := by
  induction m with
  | nil => intro element k _; rfl
  | cons kv rest ih =>
    intro element k h
    obtain ⟨k2, v2⟩ := kv
    show getAttribute (applyAttrs (setAttribute element k2 v2) rest) k =
      getAttribute element k
    simp only [List.map_cons, List.mem_cons] at h
    push_neg at h
    obtain ⟨h1, h2⟩ := h
    rw [ih (setAttribute element k2 v2) k h2]
    show lookupAttr (setAttrList element.attrs k2 v2) k = lookupAttr element.attrs k
    exact lookupAttr_setAttrList_other element.attrs k2 v2 k h1

/-- Applying an attribute map with duplicate free keys sets every pair of
the map on the element. -/
theorem getAttribute_applyAttrs_mem (m : List (String × String)) :
    ∀ (element : Element) (k v : String), (m.map Prod.fst).Nodup →
      (k, v) ∈ m → getAttribute (applyAttrs element m) k = some v := by
  induction m with
  | nil => intro element k v _ h; exact absurd h (List.not_mem_nil _)
  | cons kv rest ih =>
    intro element k v hnd hm
    obtain ⟨k2, v2⟩ := kv
    show getAttribute (applyAttrs (setAttribute element k2 v2) rest) k = some v
    simp only [List.map_cons, List.nodup_cons] at hnd
    obtain ⟨hk2, hndr⟩ := hnd
    rcases List.mem_cons.mp hm with h1 | h2
    · injection h1 with hkk hvv
      subst hkk
      subst hvv
      rw [getAttribute_applyAttrs_not_mem rest (setAttribute element k v) k hk2]
      show lookupAttr (setAttrList element.attrs k v) k = some v
      exact lookupAttr_setAttrList_same element.attrs k v
    · exact ih (setAttribute element k2 v2) k v hndr h2

/-- C8: assigning an attribute map with duplicate free keys rewrites every
bound element by applying exactly the pairs of the current map: every key of
the map reads back its mapped value on each bound element, and every key
outside the map keeps whatever value the element had before, with no removal
or clearing of prior attributes. -/
theorem c8_attr_sync_frame (node : NodeRec) (m : List (String × String))
    (hk : (m.map Prod.fst).Nodup) :
    (setAttrProp node m).1.DOM =
      node.DOM.map (fun element => applyAttrs element m) ∧
    (∀ element k v, (k, v) ∈ m →
      getAttribute (applyAttrs element m) k = some v) ∧
    (∀ element k, k ∉ m.map Prod.fst →
      getAttribute (applyAttrs element m) k = getAttribute element k) := by
  refine ⟨rfl, ?_, ?_⟩
  · intro element k v hm
    exact getAttribute_applyAttrs_mem m element k v hk hm
  · intro element k h
    exact getAttribute_applyAttrs_not_mem m element k h

/-- divWithClass is a DIV element carrying a class attribute from an earlier
assignment. -/
def divWithClass : Element :=
  { eid := 21, tagName := "DIV", type := "", value := JSVal.null,
    checked := JSVal.null, selectedIndex := JSVal.num 0,
    innerHTML := JSVal.str "", attrs := [("class", "y")] }

/-- nodeAttrExample is a node bound to divWithClass. -/
def nodeAttrExample : NodeRec :=
  { value := JSVal.null, attr := [("id", "x"), ("class", "y")],
    DOM := [divWithClass] }

/-- Witness for C8: a second attribute assignment with only an id key
updates id on the bound element and leaves the earlier class attribute in
place. -/
theorem c8_witness :
    (([("id", "z")].map (Prod.fst (α := String) (β := String))).Nodup) ∧
    ((setAttrProp nodeAttrExample [("id", "z")]).1.DOM =
      nodeAttrExample.DOM.map (fun element => applyAttrs element [("id", "z")]) ∧
    (∀ element k v, (k, v) ∈ ([("id", "z")] : List (String × String)) →
      getAttribute (applyAttrs element [("id", "z")]) k = some v) ∧
    (∀ element k, k ∉ ([("id", "z")] : List (String × String)).map Prod.fst →
      getAttribute (applyAttrs element [("id", "z")]) k = getAttribute element k)) :=
  ⟨by decide, c8_attr_sync_frame nodeAttrExample [("id", "z")] (by decide)⟩

end FX
